import Mathlib

/-!
# Verification of the LLDP agent codec (lldp/)

Shallow embedding of the Python LLDP implementation:
  * `lldp/tlv/*.py`      — TLV value types (constructors and `from_bytes` decoders)
  * `lldp/lldpdu.py`     — LLDPDU assembly (`append`, `complete`, `__bytes__`, `from_bytes`)
  * `lldp/agent.py`      — announce construction and the receive path of the agent loop

Bytes are modelled as `List Nat` with every element `< 256` where it matters.
Python strings are modelled by their UTF-8 encoding (a byte list); fallible code
returns `Except PyErr`.  The TLV base class (`lldp/tlv/__init__.py`), the
`PortIdTLV` and the `EndOfLLDPDUTLV` classes are not part of the sources; they
are modelled from the specification where indicated.
-/

/-- Python exception kinds observable in the embedded code.  A
`UnicodeDecodeError` is in Python a subclass of `ValueError`; it is kept as a
separate constructor because no embedded code path catches either. -/
inductive PyErr
  | valueError
  | indexError
  | typeError
  | overflowError
  | structError
  | unicodeError
deriving DecidableEq, Repr

deriving instance DecidableEq for Except

/-- True exactly when the computation raised. -/
def exceptIsErr {α : Type} : Except PyErr α → Bool
  | .error _ => true
  | .ok _ => false

/-- Python `data[i]` on a bytes object: `IndexError` when out of range
(nonnegative indices only; the embedded code never uses negative indices). -/
def pyGet (l : List Nat) (i : Nat) : Except PyErr Nat :=
  match l.get? i with
  | some b => .ok b
  | none => .error .indexError

/-- Python `data[a:b]` for nonnegative bounds: clamping, never raising. -/
def pySlice (l : List Nat) (a b : Nat) : List Nat :=
  (l.drop a).take (b - a)

/-- Model of `struct.unpack_from("!H", data, off)[0]`: big-endian 16-bit read;
`struct.error` when fewer than 2 octets remain past the offset. -/
def unpackBE2 (l : List Nat) (off : Nat) : Except PyErr Nat :=
  if off + 2 ≤ l.length then .ok (l.getD off 0 * 256 + l.getD (off + 1) 0)
  else .error .structError

/-- Model of `struct.unpack_from("!I", data, off)[0]`: big-endian 32-bit read. -/
def unpackBE4 (l : List Nat) (off : Nat) : Except PyErr Nat :=
  if off + 4 ≤ l.length then
    .ok (((l.getD off 0 * 256 + l.getD (off + 1) 0) * 256 + l.getD (off + 2) 0) * 256
          + l.getD (off + 3) 0)
  else .error .structError

/-- Model of `struct.unpack_from("6s", data, off)[0]`: six raw octets. -/
def unpack6s (l : List Nat) (off : Nat) : Except PyErr (List Nat) :=
  if off + 6 ≤ l.length then .ok (pySlice l off (off + 6))
  else .error .structError

/-- Big-endian 2-octet encoding of `n < 2^16` (`n.to_bytes(2, 'big')`). -/
def be16 (n : Nat) : List Nat := [n / 256 % 256, n % 256]

/-- Big-endian 4-octet encoding of `n < 2^32` (`n.to_bytes(4, 'big')` /
`struct.pack("!I", n)`). -/
def be32 (n : Nat) : List Nat :=
  [n / 16777216 % 256, n / 65536 % 256, n / 256 % 256, n % 256]

/-- Continuation byte of a UTF-8 sequence (`0x80 ≤ b ≤ 0xBF`). -/
def isUtf8Cont (b : Nat) : Bool := 128 ≤ b && b ≤ 191

/-- Validity of a byte list as strict UTF-8, as checked by Python's
`bytes.decode('utf-8')` (RFC 3629: no overlongs, no surrogates, max U+10FFFF). -/
def utf8Valid : List Nat → Bool
  | [] => true
  | b :: rest =>
    if b ≤ 127 then utf8Valid rest
    else if 194 ≤ b && b ≤ 223 then
      match rest with
      | c1 :: r => isUtf8Cont c1 && utf8Valid r
      | [] => false
    else if 224 ≤ b && b ≤ 239 then
      match rest with
      | c1 :: c2 :: r =>
        (if b = 224 then 160 ≤ c1 && c1 ≤ 191
         else if b = 237 then 128 ≤ c1 && c1 ≤ 159
         else isUtf8Cont c1) && isUtf8Cont c2 && utf8Valid r
      | _ => false
    else if 240 ≤ b && b ≤ 244 then
      match rest with
      | c1 :: c2 :: c3 :: r =>
        (if b = 240 then 144 ≤ c1 && c1 ≤ 191
         else if b = 244 then 128 ≤ c1 && c1 ≤ 143
         else isUtf8Cont c1) && isUtf8Cont c2 && isUtf8Cont c3 && utf8Valid r
      | _ => false
    else false

/-- Python `len(s)` for a string modelled by its UTF-8 bytes: the number of
code points, i.e. the number of non-continuation bytes. -/
def utf8CharCount (s : List Nat) : Nat :=
  (s.filter (fun b => !(isUtf8Cont b))).length

/-- Model of `ipaddress.IPv4Address` / `IPv6Address`, carrying the packed octets. -/
inductive IpAddr
  | v4 (packed : List Nat)
  | v6 (packed : List Nat)
deriving DecidableEq, Repr

/-- Model of `ip_address(packed_bytes)`: 4 octets give IPv4, 16 give IPv6, anything
else raises `ValueError`. -/
def ipFromPacked (l : List Nat) : Except PyErr IpAddr :=
  if l.length = 4 then .ok (.v4 l)
  else if l.length = 16 then .ok (.v6 l)
  else .error .valueError

/-- Accessor `ip.version`. -/
def ipVersion : IpAddr → Nat
  | .v4 _ => 4
  | .v6 _ => 6

/-- Accessor `ip.packed`. -/
def ipPacked : IpAddr → List Nat
  | .v4 p => p
  | .v6 p => p

/-- Accessor `ip.max_prefixlen`. -/
def ipMaxPrefixlen : IpAddr → Nat
  | .v4 _ => 32
  | .v6 _ => 128

/-- The dynamically-typed identifier value stored by `ChassisIdTLV` /
`PortIdTLV`: Python `bytes`, an `ip_address`, or a `str` (modelled by its
UTF-8 octets). -/
inductive IdValue
  | bytesV (l : List Nat)
  | ipV (a : IpAddr)
  | strV (s : List Nat)
deriving DecidableEq, Repr

/-- Python `len(id)`: length of bytes, code-point count of a string, and a
`TypeError` for an address object (Python IP addresses have no `__len__`). -/
def idValuePyLen : IdValue → Except PyErr Nat
  | .bytesV l => .ok l.length
  | .strV s => .ok (utf8CharCount s)
  | .ipV _ => .error .typeError

/-- The identifier part of the payload built by `ChassisIdTLV.__init__`
(after the subtype octet): raw bytes, family octet + packed address, or the
UTF-8 encoding of the string. -/
def idValueBytes : IdValue → List Nat
  | .bytesV l => l
  | .ipV a => (if ipVersion a = 4 then 1 else 2) :: ipPacked a
  | .strV s => s

/-- Typed TLV records, one constructor per class of `lldp/tlv/`.  Each carries
exactly the attributes its Python constructor stores (the derived `bytes`
payload is recomputed by `tlvPayload`). -/
inductive TLVrec
  | endOf
  | chassisId (subtype : Nat) (value : IdValue)
  | portId (subtype : Nat) (value : IdValue)
  | ttl (value : Nat)
  | portDescription (s : List Nat)
  | systemName (s : List Nat)
  | systemDescription (s : List Nat)
  | systemCapabilities (value : Nat)
  | managementAddress (addr : IpAddr) (ifnum : Nat) (ifsubtype : Nat) (oid : Option (List Nat))
  | organizationallySpecific (oui : List Nat) (subtype : List Nat) (value : List Nat)
deriving DecidableEq, Repr

/-- Accessor `tlv.type`: the `TLV.Type` tag of each record (values from the spec §3;
the enum class itself is not in the sources). -/
def typeTag : TLVrec → Nat
  | .endOf => 0
  | .chassisId _ _ => 1
  | .portId _ _ => 2
  | .ttl _ => 3
  | .portDescription _ => 4
  | .systemName _ => 5
  | .systemDescription _ => 6
  | .systemCapabilities _ => 7
  | .managementAddress _ _ _ _ => 8
  | .organizationallySpecific _ _ _ => 127

/-- Test `isinstance(x, ChassisIdTLV)`. -/
def isChassisB : TLVrec → Bool
  | .chassisId _ _ => true
  | _ => false

/-- Test `isinstance(x, PortIdTLV)`. -/
def isPortB : TLVrec → Bool
  | .portId _ _ => true
  | _ => false

/-- Test `isinstance(x, TTLTLV)`. -/
def isTTLB : TLVrec → Bool
  | .ttl _ => true
  | _ => false

/-- Test `isinstance(x, EndOfLLDPDUTLV)`. -/
def isEndB : TLVrec → Bool
  | .endOf => true
  | _ => false

/-- The `self.bytes` payload each Python constructor stores (header excluded). -/
def tlvPayload : TLVrec → List Nat
  | .endOf => []
  | .chassisId st v => st :: idValueBytes v
  | .portId st v => st :: idValueBytes v
  | .ttl v => be16 v
  | .portDescription s => s
  | .systemName s => s
  | .systemDescription s => s
  | .systemCapabilities value => be32 value
  | .managementAddress a ifnum ifst oid =>
      (ipMaxPrefixlen a / 8 + 1) :: (if ipVersion a = 4 then 1 else 2) ::
        (ipPacked a ++ (ifst :: be32 ifnum ++
          (match oid with
           | some o => o.length :: o
           | none => [0])))
  | .organizationallySpecific oui st v => oui ++ st ++ v

/-- Modelled from the spec: `TLV.__bytes__` of the absent base class
(`lldp/tlv/__init__.py`).  Spec §4.1: a two-octet big-endian prefix packing
the 7-bit type tag (bits 15..9) and the 9-bit payload length (bits 8..0),
followed by the payload.  For a payload length `n ≤ 511` the two header
octets are `2*tag + n/256` and `n % 256`. -/
def tlvBytes (t : TLVrec) : List Nat :=
  (2 * typeTag t + (tlvPayload t).length / 256) :: ((tlvPayload t).length % 256) :: tlvPayload t

/-! ## TLV constructors (`__init__` of each class) -/

/-- Constructor `ChassisIdTLV.__init__(subtype, id)` (`chassisid_tlv.py`): a MAC-address
subtype requires `len(id) == 6`; otherwise the record is stored as given.
The `Subtype` argument is an already-validated enum member when called from
Python; range validation happens at `Subtype(...)` conversion in decoders. -/
def chassisIdInit (st : Nat) (v : IdValue) : Except PyErr TLVrec :=
  if st = 4 then
    match idValuePyLen v with
    | .error e => .error e
    | .ok n => if n ≠ 6 then .error .valueError else .ok (.chassisId st v)
  else .ok (.chassisId st v)

/-- Modelled from the spec: `PortIdTLV.__init__` of the absent
`portid_tlv.py`.  Spec §3: "PortId — type 2. Same shape as ChassisId,
subtype ∈ {1..7}"; mirrors `ChassisIdTLV.__init__`. -/
def portIdInit (st : Nat) (v : IdValue) : Except PyErr TLVrec :=
  if st = 4 then
    match idValuePyLen v with
    | .error e => .error e
    | .ok n => if n ≠ 6 then .error .valueError else .ok (.portId st v)
  else .ok (.portId st v)

/-- Constructor `TTLTLV.__init__(ttl)` (`ttl_tlv.py`): rejects `ttl > 65535`, then stores
`ttl.to_bytes(2, 'big')`. -/
def ttlInit (v : Nat) : Except PyErr TLVrec :=
  if v > 65535 then .error .valueError else .ok (.ttl v)

/-- Constructor `PortDescriptionTLV.__init__(description)` (`string_tlv.py`): no
validation at all; stores the UTF-8 encoding of the description. -/
def portDescriptionInit (s : List Nat) : Except PyErr TLVrec :=
  .ok (.portDescription s)

/-- Constructor `SystemNameTLV.__init__(name)` (`string_tlv.py`): no validation. -/
def systemNameInit (s : List Nat) : Except PyErr TLVrec :=
  .ok (.systemName s)

/-- Constructor `SystemDescriptionTLV.__init__(description)` (`string_tlv.py`): no
validation. -/
def systemDescriptionInit (s : List Nat) : Except PyErr TLVrec :=
  .ok (.systemDescription s)

/-- Constructor `SystemCapabilitiesTLV.__init__(supported, enabled)`
(`systemcapabilities_tlv.py`): raises `ValueError` unless
`enabled | supported == supported`; stores
`value = enabled | (supported << 16)` and `value.to_bytes(4, 'big')`
(an `OverflowError` if the combined value needs more than 4 octets). -/
def sysCapsInit (supported enabled : Nat) : Except PyErr TLVrec :=
  if ¬(enabled ||| supported = supported) then .error .valueError
  else
    let value := enabled ||| (supported <<< 16)
    if value ≥ 4294967296 then .error .overflowError
    else .ok (.systemCapabilities value)

/-- Accessor `(self.value >> 16) & 0xFFFF` — the supported bitmap read used by
`__repr__` and `supports`. -/
def capsSupported : TLVrec → Nat
  | .systemCapabilities value => (value >>> 16) &&& 65535
  | _ => 0

/-- Accessor `self.value & 0xFFFF` — the enabled bitmap read used by `__repr__`
and `enabled`. -/
def capsEnabled : TLVrec → Nat
  | .systemCapabilities value => value &&& 65535
  | _ => 0

/-- Constructor `ManagementAddressTLV.__init__(address, interface_number, ifsubtype, oid)`
(`managementaddress_tlv.py`): `struct.pack("!BI", ifsubtype, interface_number)`
constrains the subtype to one octet and the interface number to 32 bits;
`len(oid).to_bytes(1, 'big')` overflows past 255 octets of OID. -/
def mgmtInit (addr : IpAddr) (ifnum ifst : Nat) (oid : Option (List Nat)) :
    Except PyErr TLVrec :=
  if ifst ≥ 256 then .error .structError
  else if ifnum ≥ 4294967296 then .error .structError
  else
    match oid with
    | some o =>
        if o.length ≥ 256 then .error .overflowError
        else .ok (.managementAddress addr ifnum ifst (some o))
    | none => .ok (.managementAddress addr ifnum ifst none)

/-- Constructor `OrganizationallySpecificTLV.__init__(oui, subtype, value)`
(`organizationallyspecific_tlv.py`): no validation (bytes case). -/
def orgInit (oui st v : List Nat) : Except PyErr TLVrec :=
  .ok (.organizationallySpecific oui st v)

/-! ## TLV decoders (`from_bytes` of each class) -/

/-- Decoder `ChassisIdTLV.from_bytes` (`chassisid_tlv.py`).  Checks: at least two
octets, type tag 1, declared length consistent with the buffer; then per
subtype octet: MAC requires length 7, network parses `ip_address(data[4:])`
and cross-checks family octets 1/2 against the parsed version (a family
outside {1, 2} is not itself rejected), all other subtypes are converted
through the `Subtype` enum (range 1..7) and UTF-8 decoded. -/
def chassisFromBytes (data : List Nat) : Except PyErr TLVrec :=
  match data with
  | d0 :: d1 :: rest =>
    if ((d0 >>> 1) &&& 127) ≠ 1 then .error .valueError
    else
      if rest.length ≠ ((d0 &&& 1) <<< 8) ||| d1 then .error .valueError
      else
        match rest with
        | [] => .error .indexError
        | st :: rest2 =>
          if st = 4 then
            if ((d0 &&& 1) <<< 8) ||| d1 ≠ 7 then .error .valueError
            else chassisIdInit 4 (.bytesV rest2)
          else if st = 5 then
            match ipFromPacked (rest2.drop 1) with
            | .error e => .error e
            | .ok ip =>
              let fam := rest2.headD 0
              if fam = 1 ∧ ipVersion ip ≠ 4 then .error .valueError
              else if fam = 2 ∧ ipVersion ip ≠ 6 then .error .valueError
              else chassisIdInit 5 (.ipV ip)
          else
            if ¬(1 ≤ st ∧ st ≤ 7) then .error .valueError
            else if ¬(utf8Valid rest2) then .error .unicodeError
            else chassisIdInit st (.strV rest2)
  | _ => .error .valueError

/-- Modelled from the spec: `PortIdTLV.from_bytes` of the absent
`portid_tlv.py`.  Spec §3: same shape as ChassisId with type tag 2 and the
same subtype disciplines; mirrors `ChassisIdTLV.from_bytes`. -/
def portIdFromBytes (data : List Nat) : Except PyErr TLVrec :=
  match data with
  | d0 :: d1 :: rest =>
    if ((d0 >>> 1) &&& 127) ≠ 2 then .error .valueError
    else
      if rest.length ≠ ((d0 &&& 1) <<< 8) ||| d1 then .error .valueError
      else
        match rest with
        | [] => .error .indexError
        | st :: rest2 =>
          if st = 4 then
            if ((d0 &&& 1) <<< 8) ||| d1 ≠ 7 then .error .valueError
            else portIdInit 4 (.bytesV rest2)
          else if st = 5 then
            match ipFromPacked (rest2.drop 1) with
            | .error e => .error e
            | .ok ip =>
              let fam := rest2.headD 0
              if fam = 1 ∧ ipVersion ip ≠ 4 then .error .valueError
              else if fam = 2 ∧ ipVersion ip ≠ 6 then .error .valueError
              else portIdInit 5 (.ipV ip)
          else
            if ¬(1 ≤ st ∧ st ≤ 7) then .error .valueError
            else if ¬(utf8Valid rest2) then .error .unicodeError
            else portIdInit st (.strV rest2)
  | _ => .error .valueError

/-- Decoder `TTLTLV.from_bytes` (`ttl_tlv.py`): type tag 3, consistent length,
length exactly 2, then a big-endian 16-bit read at offset 2. -/
def ttlFromBytes (data : List Nat) : Except PyErr TLVrec :=
  match data with
  | d0 :: d1 :: rest =>
    if ((d0 >>> 1) &&& 127) ≠ 3 then .error .valueError
    else
      if rest.length ≠ ((d0 &&& 1) <<< 8) ||| d1 then .error .valueError
      else if ((d0 &&& 1) <<< 8) ||| d1 ≠ 2 then .error .valueError
      else
        match unpackBE2 data 2 with
        | .error e => .error e
        | .ok v => ttlInit v
  | _ => .error .valueError

/-- Decoder `PortDescriptionTLV.from_bytes` (`string_tlv.py`): type tag 4,
consistent length, UTF-8 decode of the payload. -/
def portDescriptionFromBytes (data : List Nat) : Except PyErr TLVrec :=
  match data with
  | d0 :: d1 :: rest =>
    if ((d0 >>> 1) &&& 127) ≠ 4 then .error .valueError
    else
      if rest.length ≠ ((d0 &&& 1) <<< 8) ||| d1 then .error .valueError
      else if ¬(utf8Valid rest) then .error .unicodeError
      else portDescriptionInit rest
  | _ => .error .valueError

/-- Decoder `SystemNameTLV.from_bytes` (`string_tlv.py`): type tag 5. -/
def systemNameFromBytes (data : List Nat) : Except PyErr TLVrec :=
  match data with
  | d0 :: d1 :: rest =>
    if ((d0 >>> 1) &&& 127) ≠ 5 then .error .valueError
    else
      if rest.length ≠ ((d0 &&& 1) <<< 8) ||| d1 then .error .valueError
      else if ¬(utf8Valid rest) then .error .unicodeError
      else systemNameInit rest
  | _ => .error .valueError

/-- Decoder `SystemDescriptionTLV.from_bytes` (`string_tlv.py`): type tag 6. -/
def systemDescriptionFromBytes (data : List Nat) : Except PyErr TLVrec :=
  match data with
  | d0 :: d1 :: rest =>
    if ((d0 >>> 1) &&& 127) ≠ 6 then .error .valueError
    else
      if rest.length ≠ ((d0 &&& 1) <<< 8) ||| d1 then .error .valueError
      else if ¬(utf8Valid rest) then .error .unicodeError
      else systemDescriptionInit rest
  | _ => .error .valueError

/-- Decoder `SystemCapabilitiesTLV.from_bytes` (`systemcapabilities_tlv.py`): type
tag 7, consistent length, two big-endian 16-bit reads at offsets 2 and 4
(supported then enabled), then the validating constructor. -/
def sysCapsFromBytes (data : List Nat) : Except PyErr TLVrec :=
  match data with
  | d0 :: d1 :: rest =>
    if ((d0 >>> 1) &&& 127) ≠ 7 then .error .valueError
    else
      if rest.length ≠ ((d0 &&& 1) <<< 8) ||| d1 then .error .valueError
      else
        match unpackBE2 data 2 with
        | .error e => .error e
        | .ok s =>
          match unpackBE2 data 4 with
          | .error e => .error e
          | .ok e => sysCapsInit s e
  | _ => .error .valueError

/-- Decoder `ManagementAddressTLV.from_bytes` (`managementaddress_tlv.py`).  With
`al = data[2]` the Python code computes `addr_len = al - 1` and reads
`oid_len = data[9 + addr_len] = data[8 + al]`, the address from
`data[4 : 4 + addr_len] = data[4 : 3 + al]`, the interface number at offset
`5 + addr_len = 4 + al` and the numbering subtype at `data[4 + addr_len] =
data[3 + al]`; the declared address family octet `data[3]` is never read. -/
def mgmtFromBytes (data : List Nat) : Except PyErr TLVrec :=
  match data with
  | d0 :: d1 :: rest =>
    if ((d0 >>> 1) &&& 127) ≠ 8 then .error .valueError
    else
      if rest.length ≠ ((d0 &&& 1) <<< 8) ||| d1 then .error .valueError
      else
        match pyGet data 2 with
        | .error e => .error e
        | .ok al =>
          match pyGet data (8 + al) with
          | .error e => .error e
          | .ok oidLen =>
            match ipFromPacked (pySlice data 4 (3 + al)) with
            | .error e => .error e
            | .ok ip =>
              match unpackBE4 data (4 + al) with
              | .error e => .error e
              | .ok ifnum =>
                match pyGet data (3 + al) with
                | .error e => .error e
                | .ok ifst =>
                  if ¬(1 ≤ ifst ∧ ifst ≤ 3) then .error .valueError
                  else if oidLen = 0 then mgmtInit ip ifnum ifst none
                  else mgmtInit ip ifnum ifst
                    (some (pySlice data (9 + al) (9 + al + oidLen)))
  | _ => .error .valueError

/-- Decoder `OrganizationallySpecificTLV.from_bytes`
(`organizationallyspecific_tlv.py`): type tag 127, consistent length, then
`data[2:5]`, `data[5]` (an `IndexError` on short buffers) and `data[6:]`. -/
def orgFromBytes (data : List Nat) : Except PyErr TLVrec :=
  match data with
  | d0 :: d1 :: rest =>
    if ((d0 >>> 1) &&& 127) ≠ 127 then .error .valueError
    else
      if rest.length ≠ ((d0 &&& 1) <<< 8) ||| d1 then .error .valueError
      else
        match pyGet data 5 with
        | .error e => .error e
        | .ok sub => orgInit (pySlice data 2 5) [sub] (pySlice data 6 data.length)
  | _ => .error .valueError

/-! ## LLDPDU assembler (`lldp/lldpdu.py`) -/

/-- The `LLDPDU` object state: the ordered TLV list `self.__tlvs` and the
running serialized size `self.length`. -/
structure LLDPDU where
  tlvs : List TLVrec
  length : Nat
deriving DecidableEq, Repr

/-- Model of `LLDPDU()` — the empty unit. -/
def emptyLLDPDU : LLDPDU := ⟨[], 0⟩

/-- Method `LLDPDU.complete`: all three mandatory TLVs present. -/
def completeB (L : LLDPDU) : Bool :=
  L.tlvs.any isChassisB && L.tlvs.any isPortB && L.tlvs.any isTTLB

/-- Method `LLDPDU.__bytes__`: concatenation of the TLV encodings in order. -/
def lldpduBytes (L : LLDPDU) : List Nat :=
  L.tlvs.foldl (fun acc t => acc ++ tlvBytes t) []

/-- Serialized size of a TLV sequence (what `self.length` tracks). -/
def tlvSeqSize : List TLVrec → Nat
  | [] => 0
  | t :: r => (tlvBytes t).length + tlvSeqSize r

/-- Method `LLDPDU.append(tlv)`, as executed by the method body: first component is
the raised exception (if any), second is the post-call state.  All checks
precede the mutation, so a raising call leaves the state untouched. -/
def lldpduAppendRun (L : LLDPDU) (t : TLVrec) : Except PyErr Unit × LLDPDU :=
  if (tlvBytes t).length + L.length > 1500 then (.error .valueError, L)
  else if L.tlvs.any isEndB then (.error .valueError, L)
  else if typeTag t = 1 then
    if L.tlvs.any isChassisB then (.error .valueError, L)
    else (.ok (), ⟨L.tlvs ++ [t], L.length + (tlvBytes t).length⟩)
  else if typeTag t = 2 then
    if L.tlvs.any isPortB || !(L.tlvs.any isChassisB) then (.error .valueError, L)
    else (.ok (), ⟨L.tlvs ++ [t], L.length + (tlvBytes t).length⟩)
  else if typeTag t = 3 then
    if L.tlvs.any isTTLB || !(L.tlvs.any isChassisB) || !(L.tlvs.any isPortB) then
      (.error .valueError, L)
    else (.ok (), ⟨L.tlvs ++ [t], L.length + (tlvBytes t).length⟩)
  else
    if !(L.tlvs.any isChassisB) || !(L.tlvs.any isPortB) || !(L.tlvs.any isTTLB) then
      (.error .valueError, L)
    else (.ok (), ⟨L.tlvs ++ [t], L.length + (tlvBytes t).length⟩)

/-- Method `LLDPDU.append(tlv)` as an exception-or-result computation. -/
def lldpduAppend (L : LLDPDU) (t : TLVrec) : Except PyErr LLDPDU :=
  match lldpduAppendRun L t with
  | (.ok _, L2) => .ok L2
  | (.error e, _) => .error e

/-- One iteration step plus the rest of the `while cur_idx < (len(data) + 1)`
loop of `LLDPDU.from_bytes`, acting on the not-yet-consumed suffix of the
buffer.  The loop condition also holds when the buffer is exactly exhausted
(`cur_idx = len(data)`), in which case reading the next header byte raises an
`IndexError`; a lone trailing octet raises it on the second header byte.  The
fuel argument only forces termination and never runs out when initialized to
`data.length + 1` (each iteration consumes at least two octets or returns). -/
def lldpduFromBytesGo : Nat → LLDPDU → List Nat → Except PyErr LLDPDU
  | 0, _, _ => .error .valueError
  | _ + 1, _, [] => .error .indexError
  | _ + 1, _, [_] => .error .indexError
  | fuel + 1, L, b0 :: b1 :: rest =>
    let ty := (b0 >>> 1) &&& 127
    let ln := ((b0 &&& 1) <<< 8) ||| b1
    if ln > rest.length then .error .valueError
    else
      let chunk := List.take (ln + 2) (b0 :: b1 :: rest)
      if ty = 0 then
        match lldpduAppend L .endOf with
        | .error e => .error e
        | .ok L2 => .ok L2
      else if ty = 1 then
        match chassisFromBytes chunk with
        | .error e => .error e
        | .ok t =>
          match lldpduAppend L t with
          | .error e => .error e
          | .ok L2 => lldpduFromBytesGo fuel L2 (rest.drop ln)
      else if ty = 2 then
        match portIdFromBytes chunk with
        | .error e => .error e
        | .ok t =>
          match lldpduAppend L t with
          | .error e => .error e
          | .ok L2 => lldpduFromBytesGo fuel L2 (rest.drop ln)
      else if ty = 3 then
        match ttlFromBytes chunk with
        | .error e => .error e
        | .ok t =>
          match lldpduAppend L t with
          | .error e => .error e
          | .ok L2 => lldpduFromBytesGo fuel L2 (rest.drop ln)
      else if ty = 4 then
        match portDescriptionFromBytes chunk with
        | .error e => .error e
        | .ok t =>
          match lldpduAppend L t with
          | .error e => .error e
          | .ok L2 => lldpduFromBytesGo fuel L2 (rest.drop ln)
      else if ty = 5 then
        match systemNameFromBytes chunk with
        | .error e => .error e
        | .ok t =>
          match lldpduAppend L t with
          | .error e => .error e
          | .ok L2 => lldpduFromBytesGo fuel L2 (rest.drop ln)
      else if ty = 6 then
        match systemDescriptionFromBytes chunk with
        | .error e => .error e
        | .ok t =>
          match lldpduAppend L t with
          | .error e => .error e
          | .ok L2 => lldpduFromBytesGo fuel L2 (rest.drop ln)
      else if ty = 7 then
        match sysCapsFromBytes chunk with
        | .error e => .error e
        | .ok t =>
          match lldpduAppend L t with
          | .error e => .error e
          | .ok L2 => lldpduFromBytesGo fuel L2 (rest.drop ln)
      else if ty = 8 then
        match mgmtFromBytes chunk with
        | .error e => .error e
        | .ok t =>
          match lldpduAppend L t with
          | .error e => .error e
          | .ok L2 => lldpduFromBytesGo fuel L2 (rest.drop ln)
      else if ty = 127 then
        match orgFromBytes chunk with
        | .error e => .error e
        | .ok t =>
          match lldpduAppend L t with
          | .error e => .error e
          | .ok L2 => lldpduFromBytesGo fuel L2 (rest.drop ln)
      else .error .valueError

/-- Decoder `LLDPDU.from_bytes(data)` (`lldpdu.py`).  A record of type
`EndOfLLDPDU` ends parsing; every other record is decoded by its class and
appended through the same validation path; unknown types raise. -/
def lldpduFromBytes (data : List Nat) : Except PyErr LLDPDU :=
  lldpduFromBytesGo (data.length + 1) emptyLLDPDU data

/-! ## Agent (`lldp/agent.py`) -/

/-- The three LLDP multicast destination addresses accepted by the receive
path. -/
def lldpMulticast0 : List Nat := [1, 128, 194, 0, 0, 0]

/-- Address `01:80:c2:00:00:03`. -/
def lldpMulticast3 : List Nat := [1, 128, 194, 0, 0, 3]

/-- Address `01:80:c2:00:00:0e` — also the transmit destination. -/
def lldpMulticastE : List Nat := [1, 128, 194, 0, 0, 14]

/-- Model of `struct.pack('6s', b)`: zero-padded / truncated to six octets. -/
def pad6 (l : List Nat) : List Nat :=
  l.take 6 ++ List.replicate (6 - l.length) 0

/-- The frame-processing part of one pass of `LLDPAgent.run` once a frame was
received: destination filter, self-origin filter, ethertype filter (each
filtered frame is only reported to stdout, `none`), then
`LLDPDU.from_bytes(data[14:])` whose exceptions propagate uncaught out of the
loop (there is no handler between the parse and the `while`), and finally the
logger call on success (`some`). -/
def runPassRecv (localMac frame : List Nat) : Except PyErr (Option LLDPDU) := do
  let dst ← unpack6s frame 0
  if ¬(dst = lldpMulticast0 ∨ dst = lldpMulticast3 ∨ dst = lldpMulticastE) then
    return none
  else
    let src ← unpack6s frame 6
    if src = localMac then
      return none
    else
      let eth ← unpackBE2 frame 12
      if eth ≠ 0x88CC then
        return none
      else
        let du ← lldpduFromBytes (frame.drop 14)
        return (some du)

/-- Method `LLDPAgent.announce`: builds the LLDPDU from
`ChassisIdTLV(MAC_ADDRESS, self.mac_address)`,
`PortIdTLV(INTERFACE_NAME, self.interface_name)`, `TTLTLV(60)` and the
Ethernet frame `pack('!6s6sH', 01:80:c2:00:00:0e, self.mac_address, 0x88CC)`
followed by the LLDPDU bytes.  Returns the built LLDPDU and the sent frame. -/
def announceResult (mac iface : List Nat) : Except PyErr (LLDPDU × List Nat) := do
  let c ← chassisIdInit 4 (.bytesV mac)
  let p ← portIdInit 6 (.strV iface)
  let t ← ttlInit 60
  let L1 ← lldpduAppend emptyLLDPDU c
  let L2 ← lldpduAppend L1 p
  let L3 ← lldpduAppend L2 t
  return (L3, lldpMulticastE ++ pad6 mac ++ [136, 204] ++ lldpduBytes L3)

/-! ## Theorems -/

/-- C1: the LLDPDU consisting of `ChassisId(MAC, 02:04:df:88:a2:b4)`,
`PortId(InterfaceName, "eth0")`, `TTL(60)` is accepted by the validating
append path (hence satisfies I1–I4: the mandatory prefix in order, each
singleton once, no End terminator, 20 ≤ 1500 serialized octets), but
decoding its own encoding raises: with no `EndOfLLDPDU` on the wire, the
loop condition `cur_idx < len(data) + 1` admits `cur_idx = len(data)` and
the header read `data[cur_idx]` is out of range.  The round-trip
`LLDPDU.from_bytes(bytes(L)) == L` therefore fails for this `L`. -/
theorem lldpdu_roundtrip_fails_without_end_terminator :
    (do
      let c ← chassisIdInit 4 (.bytesV [2, 4, 223, 136, 162, 180])
      let p ← portIdInit 6 (.strV [101, 116, 104, 48])
      let t ← ttlInit 60
      let L1 ← lldpduAppend emptyLLDPDU c
      let L2 ← lldpduAppend L1 p
      lldpduAppend L2 t) =
      .ok ⟨[.chassisId 4 (.bytesV [2, 4, 223, 136, 162, 180]),
            .portId 6 (.strV [101, 116, 104, 48]), .ttl 60], 20⟩
    ∧ lldpduBytes ⟨[.chassisId 4 (.bytesV [2, 4, 223, 136, 162, 180]),
            .portId 6 (.strV [101, 116, 104, 48]), .ttl 60], 20⟩ =
        [2, 7, 4, 2, 4, 223, 136, 162, 180, 4, 5, 6, 101, 116, 104, 48, 6, 2, 0, 60]
    ∧ lldpduFromBytes
        [2, 7, 4, 2, 4, 223, 136, 162, 180, 4, 5, 6, 101, 116, 104, 48, 6, 2, 0, 60] =
        .error .indexError := by
  refine ⟨by decide, by decide, by decide⟩

/-- C2: a buffer that is the concatenation of four individually valid TLV
encodings (Chassis-ID MAC, Port-ID interface name, TTL, System Name) with no
`EndOfLLDPDU` terminator: every chunk decodes on its own, yet
`LLDPDU.from_bytes` raises an `IndexError` when the buffer is exhausted
instead of returning the decoded LLDPDU, because of the off-by-one loop
condition `cur_idx < len(data) + 1`. -/
theorem lldpdu_decode_without_end_terminator_raises :
    chassisFromBytes [2, 7, 4, 0, 17, 34, 51, 68, 85] =
      .ok (.chassisId 4 (.bytesV [0, 17, 34, 51, 68, 85]))
    ∧ portIdFromBytes [4, 5, 6, 101, 116, 104, 48] =
      .ok (.portId 6 (.strV [101, 116, 104, 48]))
    ∧ ttlFromBytes [6, 2, 0, 60] = .ok (.ttl 60)
    ∧ systemNameFromBytes [10, 1, 120] = .ok (.systemName [120])
    ∧ lldpduFromBytes
        [2, 7, 4, 0, 17, 34, 51, 68, 85, 4, 5, 6, 101, 116, 104, 48, 6, 2, 0, 60,
         10, 1, 120] = .error .indexError := by
  refine ⟨by decide, by decide, by decide, by decide, by decide⟩

/-- C3: a frame addressed to `01:80:c2:00:00:0e` from a foreign source with
ethertype `0x88CC` whose two-octet payload `12 00` declares the unknown TLV
type 9: the payload parse raises a `ValueError`, and since `LLDPAgent.run`
wraps the loop body in no handler other than `except KeyboardInterrupt`, the
exception escapes the pass (and the loop) instead of being logged and
skipped; no diagnostic is produced for the frame. -/
theorem agent_parse_error_escapes_loop :
    runPassRecv [170, 170, 170, 170, 170, 170]
      [1, 128, 194, 0, 0, 14, 0, 1, 2, 3, 4, 5, 136, 204, 18, 0] =
      .error .valueError := by
  decide

/-- C9: `LLDPAgent.announce` with local MAC `02:04:df:88:a2:b4` and
interface name `"eth0"` builds exactly the LLDPDU
`[ChassisId(MAC, mac), PortId(InterfaceName, "eth0"), TTL(60)]` and sends
the Ethernet frame `01:80:c2:00:00:0e · mac · 88 cc` followed by the LLDPDU
payload `02 07 04 02 04 df 88 a2 b4  04 05 06 65 74 68 30  06 02 00 3c`. -/
theorem announce_minimal_frame :
    announceResult [2, 4, 223, 136, 162, 180] [101, 116, 104, 48] =
      .ok (⟨[.chassisId 4 (.bytesV [2, 4, 223, 136, 162, 180]),
             .portId 6 (.strV [101, 116, 104, 48]), .ttl 60], 20⟩,
           [1, 128, 194, 0, 0, 14, 2, 4, 223, 136, 162, 180, 136, 204,
            2, 7, 4, 2, 4, 223, 136, 162, 180, 4, 5, 6, 101, 116, 104, 48,
            6, 2, 0, 60]) := by
  decide

/-- C7 counterexample: the Chassis-ID network-address identifier
`05 03 01 02 03 04` (family octet 3, a 4-octet packed address) decodes
successfully — `from_bytes` only rejects family 1 paired with a non-IPv4
packed length and family 2 paired with a non-IPv6 one, and has no else
branch for other family values — contradicting the claim that every family
octet outside {1, 2} fails to decode. -/
theorem chassis_network_family_three_accepted :
    chassisFromBytes [2, 6, 5, 3, 1, 2, 3, 4] =
      .ok (.chassisId 5 (.ipV (.v4 [1, 2, 3, 4]))) := by
  decide

/-- C8 counterexample: constructing a `PortDescriptionTLV` from a string of
256 octets succeeds — `PortDescriptionTLV.__init__` performs no length
validation — contradicting the claim that such construction is rejected. -/
theorem string_tlv_256_construction_succeeds :
    portDescriptionInit (List.replicate 256 97) =
      .ok (.portDescription (List.replicate 256 97)) := by
  rfl


/-! ### System capabilities: validity at construction and decode (C6) -/

/-- A 16-bit word has no bits at positions 16 and above. -/
theorem testBit_false_of_lt_65536 {e : Nat} (he : e < 65536) {i : Nat} (hi : 16 ≤ i) :
    e.testBit i = false := by
  apply Nat.testBit_lt_two_pow
  calc e < 65536 := he
    _ = 2 ^ 16 := by norm_num
    _ ≤ 2 ^ i := Nat.pow_le_pow_right (by norm_num) hi

/-- The check `enabled | supported == supported` is exactly "no bit of `enabled`
outside `supported`", written with the 16-bit complement `0xFFFF ^^^ s`. -/
theorem lor_eq_self_iff_no_extra_bits (s e : Nat) (_hs : s < 65536) (he : e < 65536) :
    (e ||| s = s) ↔ e &&& (65535 ^^^ s) = 0 := by
  have h65535 : (65535 : Nat) = 2 ^ 16 - 1 := by norm_num
  constructor
  · intro h
    apply Nat.eq_of_testBit_eq
    intro i
    have hb := congrArg (fun x => Nat.testBit x i) h
    simp only [Nat.testBit_or] at hb
    simp only [Nat.testBit_and, Nat.testBit_xor, Nat.zero_testBit, h65535,
      Nat.testBit_two_pow_sub_one]
    by_cases hei : e.testBit i
    · have hsi : s.testBit i = true := by
        cases hsi : s.testBit i
        · rw [hei, hsi] at hb; simp at hb
        · rfl
      have hi16 : i < 16 := by
        by_contra hge
        rw [testBit_false_of_lt_65536 he (by omega)] at hei
        exact Bool.false_ne_true hei
      simp [hei, hsi, hi16]
    · simp only [Bool.not_eq_true] at hei
      simp [hei]
  · intro h
    apply Nat.eq_of_testBit_eq
    intro i
    have hb := congrArg (fun x => Nat.testBit x i) h
    simp only [Nat.testBit_and, Nat.testBit_xor, Nat.zero_testBit, h65535,
      Nat.testBit_two_pow_sub_one] at hb
    simp only [Nat.testBit_or]
    by_cases hei : e.testBit i
    · have hi16 : i < 16 := by
        by_contra hge
        rw [testBit_false_of_lt_65536 he (by omega)] at hei
        exact Bool.false_ne_true hei
      rw [hei] at hb
      simp only [hi16, decide_eq_true_eq, Bool.true_and] at hb
      cases hsi : s.testBit i
      · rw [hsi] at hb
        simp [hi16] at hb
      · simp [hei, hsi]
    · simp only [Bool.not_eq_true] at hei
      simp [hei]

/-- For 16-bit words `((e ||| (s <<< 16)) >>> 16) &&& 0xFFFF = s`: the
supported-bitmap accessor recovers the constructor argument. -/
theorem caps_supported_recover (s e : Nat) (hs : s < 65536) (he : e < 65536) :
    ((e ||| (s <<< 16)) >>> 16) &&& 65535 = s := by
  have h65535 : (65535 : Nat) = 2 ^ 16 - 1 := by norm_num
  apply Nat.eq_of_testBit_eq
  intro i
  simp only [Nat.testBit_and, Nat.testBit_shiftRight, Nat.testBit_or,
    Nat.testBit_shiftLeft, h65535, Nat.testBit_two_pow_sub_one]
  have hei : e.testBit (16 + i) = false := testBit_false_of_lt_65536 he (by omega)
  by_cases hi16 : i < 16
  · simp [hei, hi16, Nat.add_sub_cancel_left]
  · have hsi : s.testBit i = false := testBit_false_of_lt_65536 hs (by omega)
    have hsi2 : s.testBit (16 + i - 16) = false := by
      rw [Nat.add_sub_cancel_left]; exact hsi
    simp [hei, hi16, hsi, hsi2]

/-- For 16-bit words `(e ||| (s <<< 16)) &&& 0xFFFF = e`: the
enabled-bitmap accessor recovers the constructor argument. -/
theorem caps_enabled_recover (s e : Nat) (he : e < 65536) :
    (e ||| (s <<< 16)) &&& 65535 = e := by
  have h65535 : (65535 : Nat) = 2 ^ 16 - 1 := by norm_num
  apply Nat.eq_of_testBit_eq
  intro i
  simp only [Nat.testBit_and, Nat.testBit_or, Nat.testBit_shiftLeft, h65535,
    Nat.testBit_two_pow_sub_one]
  by_cases hi16 : i < 16
  · have : ¬(16 ≤ i) := by omega
    simp [hi16, this]
  · have hei : e.testBit i = false := testBit_false_of_lt_65536 he (by omega)
    simp [hi16, hei]

/-- Every element read from a byte list is below 256. -/
theorem byteGetD : ∀ (l : List Nat), (∀ b ∈ l, b < 256) → ∀ i : Nat, l.getD i 0 < 256 := by
  intro l
  induction l with
  | nil => intro _ i; cases i <;> simp [List.getD]
  | cons x xs ih =>
    intro h i
    cases i with
    | zero => simpa [List.getD] using h x (by simp)
    | succ j =>
      have := ih (fun b hb => h b (by simp [hb])) j
      simpa [List.getD] using this

/-- C6: `SystemCapabilitiesTLV` validity.  Construction with 16-bit bitmaps
succeeds exactly when `enabled` has no bit outside `supported`
(`enabled & ~supported == 0`, complement over the 16-bit word), and on
success the stored `value = enabled | (supported << 16)` reproduces both
words exactly through the accessors `(value >> 16) & 0xFFFF` and
`value & 0xFFFF` — reserved bits included, none rejected.  Decoding goes
through the same constructor on the two big-endian wire words, so every
decoded TLV satisfies the constraint and carries exactly those words. -/
theorem syscaps_validity :
    (∀ s e : Nat, s < 65536 → e < 65536 →
      ((exceptIsErr (sysCapsInit s e) = false ↔ e &&& (65535 ^^^ s) = 0) ∧
       ∀ t, sysCapsInit s e = .ok t → capsSupported t = s ∧ capsEnabled t = e)) ∧
    (∀ (data : List Nat) (t : TLVrec), (∀ b ∈ data, b < 256) →
      sysCapsFromBytes data = .ok t →
      capsEnabled t &&& (65535 ^^^ capsSupported t) = 0 ∧
      capsSupported t = data.getD 2 0 * 256 + data.getD 3 0 ∧
      capsEnabled t = data.getD 4 0 * 256 + data.getD 5 0) := by
  have hvlt : ∀ s e : Nat, s < 65536 → e < 65536 → e ||| (s <<< 16) < 4294967296 := by
    intro s e hs he
    have h1 : e < 2 ^ 32 := by omega
    have h2 : s <<< 16 < 2 ^ 32 := by
      rw [Nat.shiftLeft_eq]
      have h3 : s * 2 ^ 16 < 65536 * 2 ^ 16 :=
        (Nat.mul_lt_mul_right (by norm_num)).mpr hs
      calc s * 2 ^ 16 < 65536 * 2 ^ 16 := h3
        _ = 2 ^ 32 := by norm_num
    exact Nat.or_lt_two_pow h1 h2
  have hinit : ∀ s e : Nat, s < 65536 → e < 65536 →
      ((exceptIsErr (sysCapsInit s e) = false ↔ e &&& (65535 ^^^ s) = 0) ∧
       ∀ t, sysCapsInit s e = .ok t → capsSupported t = s ∧ capsEnabled t = e) := by
    intro s e hs he
    have hnooverflow : ¬(e ||| (s <<< 16) ≥ 4294967296) := by
      have := hvlt s e hs he; omega
    constructor
    · rw [← lor_eq_self_iff_no_extra_bits s e hs he]
      unfold sysCapsInit
      by_cases h : e ||| s = s
      · rw [if_neg (not_not_intro h), if_neg hnooverflow]
        simp [exceptIsErr, h]
      · rw [if_pos h]
        simp [exceptIsErr, h]
    · intro t ht
      unfold sysCapsInit at ht
      by_cases h : e ||| s = s
      · rw [if_neg (not_not_intro h), if_neg hnooverflow] at ht
        cases ht
        exact ⟨caps_supported_recover s e hs he, caps_enabled_recover s e he⟩
      · rw [if_pos h] at ht
        exact absurd ht (by simp)
  refine ⟨hinit, ?_⟩
  intro data t hb ht
  match data, hb with
  | [], hb => simp [sysCapsFromBytes] at ht
  | [d0], hb => simp [sysCapsFromBytes] at ht
  | d0 :: d1 :: rest, hb =>
    rw [sysCapsFromBytes] at ht
    split at ht
    · exact absurd ht (by simp)
    split at ht
    · exact absurd ht (by simp)
    split at ht
    · exact absurd ht (by simp)
    case _ s hu2 =>
    split at ht
    · exact absurd ht (by simp)
    case _ e hu4 =>
    have hs : s = (d0 :: d1 :: rest).getD 2 0 * 256 + (d0 :: d1 :: rest).getD 3 0 := by
      unfold unpackBE2 at hu2
      split at hu2
      · cases hu2; rfl
      · exact absurd hu2 (by simp)
    have he : e = (d0 :: d1 :: rest).getD 4 0 * 256 + (d0 :: d1 :: rest).getD 5 0 := by
      unfold unpackBE2 at hu4
      split at hu4
      · cases hu4; rfl
      · exact absurd hu4 (by simp)
    have hs16 : s < 65536 := by
      have h1 := byteGetD (d0 :: d1 :: rest) hb 2
      have h2 := byteGetD (d0 :: d1 :: rest) hb 3
      omega
    have he16 : e < 65536 := by
      have h1 := byteGetD (d0 :: d1 :: rest) hb 4
      have h2 := byteGetD (d0 :: d1 :: rest) hb 5
      omega
    have hacc := (hinit s e hs16 he16).2 t ht
    refine ⟨?_, by rw [hacc.1, ← hs], by rw [hacc.2, ← he]⟩
    rw [hacc.1, hacc.2, ← lor_eq_self_iff_no_extra_bits s e hs16 he16]
    unfold sysCapsInit at ht
    by_cases h : e ||| s = s
    · exact h
    · rw [if_pos h] at ht
      exact absurd ht (by simp)

/-- Witness for `syscaps_validity`: at `supported = 0b0110`, `enabled =
0b0100` construction succeeds, and the TLV decoded from
`0e 04 00 06 00 04` satisfies the capability constraint. -/
theorem syscaps_validity_witness :
    exceptIsErr (sysCapsInit 6 4) = false ∧
    capsEnabled (TLVrec.systemCapabilities 393220) &&&
      (65535 ^^^ capsSupported (.systemCapabilities 393220)) = 0 := by
  constructor
  · exact ((syscaps_validity.1 6 4 (by decide) (by decide)).1).mpr (by decide)
  · exact (syscaps_validity.2 [14, 4, 0, 6, 0, 4] (.systemCapabilities 393220)
      (by decide) (by decide)).1

/-! ### The append discipline (C4, C5, C10) -/

/-- A mandatory-prefix record: Chassis-ID, Port-ID or TTL. -/
def isMandatoryB (t : TLVrec) : Bool :=
  typeTag t = 1 || typeTag t = 2 || typeTag t = 3

/-- The optional-records-then-terminator tail of a well-formed sequence:
records of type tag above 3, with at most an `EndOfLLDPDU` closing it. -/
def wfOpts : List TLVrec → Bool
  | [] => true
  | x :: r => if isEndB x then r.isEmpty else decide (3 < typeTag x) && wfOpts r


/-- The shapes `LLDPDU.append` can ever produce from empty: a prefix of
`[ChassisId, PortId, TTL]` followed (only when all three are present) by
optional records and at most one final `EndOfLLDPDU`. -/
def wfSeq : List TLVrec → Bool
  | [] => true
  | [c] => isChassisB c
  | [c, p] => isChassisB c && isPortB p
  | c :: p :: t :: r3 => isChassisB c && isPortB p && isTTLB t && wfOpts r3

/-- A nonempty well-formed sequence starts with (hence contains) a
Chassis-ID. -/
theorem wfSeq_any_chassis {l : List TLVrec} (hw : wfSeq l = true) (hne : l ≠ []) :
    l.any isChassisB = true := by
  match l with
  | [] => exact absurd rfl hne
  | [c] =>
    rw [wfSeq] at hw
    simp [List.any_cons, hw]
  | [c, p] =>
    rw [wfSeq] at hw
    simp [List.any_cons, (Bool.and_eq_true_iff.mp hw).1]
  | c :: p :: t :: r3 =>
    rw [wfSeq] at hw
    have h1 := (Bool.and_eq_true_iff.mp (Bool.and_eq_true_iff.mp
      (Bool.and_eq_true_iff.mp hw).1).1).1
    simp [List.any_cons, h1]

/-- In a well-formed sequence a Port-ID implies a Chassis-ID. -/
theorem wfSeq_port_imp_chassis {l : List TLVrec} (hw : wfSeq l = true)
    (hp : l.any isPortB = true) : l.any isChassisB = true := by
  apply wfSeq_any_chassis hw
  intro he
  rw [he] at hp
  simp at hp

/-- A well-formed sequence without a Chassis-ID is empty. -/
theorem wfSeq_no_chassis_nil {l : List TLVrec} (hw : wfSeq l = true)
    (hc : l.any isChassisB = false) : l = [] := by
  by_contra hne
  rw [wfSeq_any_chassis hw hne] at hc
  simp at hc

/-- A well-formed sequence with a Chassis-ID but no Port-ID is the lone
chassis record. -/
theorem wfSeq_no_port_single {l : List TLVrec} (hw : wfSeq l = true)
    (hp : l.any isPortB = false) (hc : l.any isChassisB = true) :
    ∃ c, l = [c] ∧ isChassisB c = true := by
  match l with
  | [] => simp at hc
  | [c] =>
    rw [wfSeq] at hw
    exact ⟨c, rfl, hw⟩
  | [c, p] =>
    rw [wfSeq] at hw
    have hpp := (Bool.and_eq_true_iff.mp hw).2
    rw [List.any_cons, List.any_cons, hpp] at hp
    simp at hp
  | c :: p :: t :: r3 =>
    rw [wfSeq] at hw
    have hpp := (Bool.and_eq_true_iff.mp (Bool.and_eq_true_iff.mp
      (Bool.and_eq_true_iff.mp hw).1).1).2
    rw [List.any_cons, List.any_cons, hpp] at hp
    simp at hp

/-- A well-formed sequence with a Port-ID but no TTL is exactly
`[chassis, port]`. -/
theorem wfSeq_no_ttl_pair {l : List TLVrec} (hw : wfSeq l = true)
    (ht : l.any isTTLB = false) (hp : l.any isPortB = true) :
    ∃ c p, l = [c, p] ∧ isChassisB c = true ∧ isPortB p = true := by
  match l with
  | [] => simp at hp
  | [c] =>
    rw [wfSeq] at hw
    have : isPortB c = false := by
      cases c <;> simp_all [isChassisB, isPortB]
    rw [List.any_cons, this] at hp
    simp at hp
  | [c, p] =>
    rw [wfSeq] at hw
    exact ⟨c, p, rfl, (Bool.and_eq_true_iff.mp hw).1, (Bool.and_eq_true_iff.mp hw).2⟩
  | c :: p :: t :: r3 =>
    rw [wfSeq] at hw
    have h3 := (Bool.and_eq_true_iff.mp (Bool.and_eq_true_iff.mp hw).1).2
    rw [List.any_cons, List.any_cons, List.any_cons, h3] at ht
    simp at ht

/-- A well-formed complete sequence is `chassis :: port :: ttl :: opts` with
a well-formed optional tail. -/
theorem wfSeq_complete_shape {l : List TLVrec} (hw : wfSeq l = true)
    (hc : l.any isChassisB = true) (hp : l.any isPortB = true)
    (ht : l.any isTTLB = true) :
    ∃ c p t r3, l = c :: p :: t :: r3 ∧ isChassisB c = true ∧ isPortB p = true ∧
      isTTLB t = true ∧ wfOpts r3 = true := by
  match l with
  | [] => simp at hc
  | [c] =>
    rw [wfSeq] at hw
    have : isPortB c = false := by
      cases c <;> simp_all [isChassisB, isPortB]
    rw [List.any_cons, this] at hp
    simp at hp
  | [c, p] =>
    rw [wfSeq] at hw
    have h1 := (Bool.and_eq_true_iff.mp hw).1
    have h2 := (Bool.and_eq_true_iff.mp hw).2
    have hc' : isTTLB c = false := by
      cases c <;> simp_all [isChassisB, isTTLB]
    have hp' : isTTLB p = false := by
      cases p <;> simp_all [isPortB, isTTLB]
    rw [List.any_cons, List.any_cons, hc', hp'] at ht
    simp at ht
  | c :: p :: t :: r3 =>
    rw [wfSeq] at hw
    have h1 := (Bool.and_eq_true_iff.mp (Bool.and_eq_true_iff.mp
      (Bool.and_eq_true_iff.mp hw).1).1).1
    have h2 := (Bool.and_eq_true_iff.mp (Bool.and_eq_true_iff.mp
      (Bool.and_eq_true_iff.mp hw).1).1).2
    have h3 := (Bool.and_eq_true_iff.mp (Bool.and_eq_true_iff.mp hw).1).2
    have h4 := (Bool.and_eq_true_iff.mp hw).2
    exact ⟨c, p, t, r3, rfl, h1, h2, h3, h4⟩

/-- Appending an optional record or a first terminator to a well-formed
optional tail keeps it well-formed. -/
theorem wfOpts_append {r : List TLVrec} (hw : wfOpts r = true)
    (hne : r.any isEndB = false) (x : TLVrec)
    (hx : 3 < typeTag x ∨ isEndB x = true) : wfOpts (r ++ [x]) = true := by
  induction r with
  | nil =>
    rcases hx with hx | hx
    · have hxe : isEndB x = false := by
        cases hxx : x <;> simp_all [isEndB, typeTag]
      simp [wfOpts, hxe, hx]
    · rw [List.nil_append, wfOpts, hx]
      simp [List.isEmpty]
  | cons y r ih =>
    rw [List.any_cons] at hne
    have hy : isEndB y = false := by
      cases hyy : isEndB y
      · rfl
      · rw [hyy] at hne; simp at hne
    have hr : r.any isEndB = false := by
      rw [hy] at hne; simpa using hne
    rw [wfOpts, hy, if_neg (show ¬(false = true) by simp)] at hw
    have h1 := (Bool.and_eq_true_iff.mp hw).1
    have h2 := (Bool.and_eq_true_iff.mp hw).2
    rw [List.cons_append, wfOpts, hy, if_neg (show ¬(false = true) by simp)]
    simp [ih h2 hr, h1]

/-- A record is a Chassis-ID exactly when its type tag is 1. -/
theorem typeTag_one_iff (t : TLVrec) : typeTag t = 1 ↔ isChassisB t = true := by
  cases t <;> simp [typeTag, isChassisB]

/-- A record is a Port-ID exactly when its type tag is 2. -/
theorem typeTag_two_iff (t : TLVrec) : typeTag t = 2 ↔ isPortB t = true := by
  cases t <;> simp [typeTag, isPortB]

/-- A record is a TTL exactly when its type tag is 3. -/
theorem typeTag_three_iff (t : TLVrec) : typeTag t = 3 ↔ isTTLB t = true := by
  cases t <;> simp [typeTag, isTTLB]

/-- Transcription of the branch conditions of `LLDPDU.append`: the call
raises exactly when the size cap, the after-End check, or the
type-dispatched presence check of its branch fires. -/
theorem lldpduAppend_isErr_char (L : LLDPDU) (t : TLVrec) :
    exceptIsErr (lldpduAppend L t) = true ↔
      ((tlvBytes t).length + L.length > 1500 ∨
       L.tlvs.any isEndB = true ∨
       (typeTag t = 1 ∧ L.tlvs.any isChassisB = true) ∨
       (typeTag t = 2 ∧ (L.tlvs.any isPortB = true ∨ L.tlvs.any isChassisB = false)) ∨
       (typeTag t = 3 ∧ (L.tlvs.any isTTLB = true ∨ L.tlvs.any isChassisB = false ∨
          L.tlvs.any isPortB = false)) ∨
       (typeTag t ≠ 1 ∧ typeTag t ≠ 2 ∧ typeTag t ≠ 3 ∧ completeB L = false)) := by
  unfold lldpduAppend lldpduAppendRun
  split_ifs with h1 h2 h3 h4 h5 h6 h7 h8 h9
  · exact iff_of_true rfl (Or.inl h1)
  · exact iff_of_true rfl (Or.inr (Or.inl h2))
  · exact iff_of_true rfl (Or.inr (Or.inr (Or.inl ⟨h3, h4⟩)))
  · refine iff_of_false (by simp [exceptIsErr]) ?_
    rintro (h | h | ⟨ht, hx⟩ | ⟨ht, hx⟩ | ⟨ht, hx⟩ | ⟨ht, _, _, _⟩)
    · exact h1 h
    · exact h2 h
    · exact h4 hx
    · omega
    · omega
    · exact ht h3
  · refine iff_of_true rfl ?_
    rw [Bool.or_eq_true, Bool.not_eq_true'] at h6
    exact Or.inr (Or.inr (Or.inr (Or.inl ⟨h5, h6⟩)))
  · refine iff_of_false (by simp [exceptIsErr]) ?_
    rw [Bool.or_eq_true, Bool.not_eq_true', not_or] at h6
    obtain ⟨hp1, hc1⟩ := h6
    rintro (h | h | ⟨ht, hx⟩ | ⟨ht, hx⟩ | ⟨ht, hx⟩ | ⟨_, ht, _, _⟩)
    · exact h1 h
    · exact h2 h
    · exact h3 ht
    · rcases hx with hx | hx
      · exact hp1 hx
      · exact hc1 hx
    · omega
    · exact ht h5
  · refine iff_of_true rfl ?_
    rw [Bool.or_eq_true, Bool.or_eq_true, Bool.not_eq_true', Bool.not_eq_true'] at h8
    refine Or.inr (Or.inr (Or.inr (Or.inr (Or.inl ⟨h7, ?_⟩))))
    rcases h8 with (h | h) | h
    · exact Or.inl h
    · exact Or.inr (Or.inl h)
    · exact Or.inr (Or.inr h)
  · refine iff_of_false (by simp [exceptIsErr]) ?_
    rw [Bool.or_eq_true, Bool.or_eq_true, Bool.not_eq_true', Bool.not_eq_true',
      not_or, not_or] at h8
    obtain ⟨⟨ht1, hc1⟩, hp1⟩ := h8
    rintro (h | h | ⟨ht, hx⟩ | ⟨ht, hx⟩ | ⟨ht, hx⟩ | ⟨_, _, ht, _⟩)
    · exact h1 h
    · exact h2 h
    · exact h3 ht
    · exact h5 ht
    · rcases hx with hx | hx | hx
      · exact ht1 hx
      · exact hc1 hx
      · exact hp1 hx
    · exact ht h7
  · refine iff_of_true rfl ?_
    rw [Bool.or_eq_true, Bool.or_eq_true, Bool.not_eq_true', Bool.not_eq_true',
      Bool.not_eq_true'] at h9
    refine Or.inr (Or.inr (Or.inr (Or.inr (Or.inr ⟨h3, h5, h7, ?_⟩))))
    unfold completeB
    rcases h9 with (h | h) | h <;> simp [h]
  · refine iff_of_false (by simp [exceptIsErr]) ?_
    rw [Bool.or_eq_true, Bool.or_eq_true, Bool.not_eq_true', Bool.not_eq_true',
      Bool.not_eq_true', not_or, not_or] at h9
    obtain ⟨⟨hc1, hp1⟩, ht1⟩ := h9
    have hc2 := eq_true_of_ne_false hc1
    have hp2 := eq_true_of_ne_false hp1
    have ht2 := eq_true_of_ne_false ht1
    rintro (h | h | ⟨ht, hx⟩ | ⟨ht, hx⟩ | ⟨ht, hx⟩ | ⟨_, _, _, hx⟩)
    · exact h1 h
    · exact h2 h
    · exact h3 ht
    · exact h5 ht
    · exact h7 ht
    · unfold completeB at hx
      rw [hc2, hp2, ht2] at hx
      simp at hx

/-- A record is non-mandatory exactly when its type tag is none of 1, 2, 3. -/
theorem isMandatoryB_false_iff (t : TLVrec) :
    isMandatoryB t = false ↔ (typeTag t ≠ 1 ∧ typeTag t ≠ 2 ∧ typeTag t ≠ 3) := by
  cases t <;> simp [isMandatoryB, typeTag]

/-- C4: on any reachable LLDPDU state (`wfSeq` shape, consistent tracked
length), `append(tlv)` raises exactly when one of the claimed conditions
holds: a second instance of a singleton (Chassis-ID, Port-ID, TTL,
EndOfLLDPDU); a violation of the mandatory prefix order (a non-chassis
first record, a Port-ID without a Chassis-ID, a TTL without a Port-ID, or a
non-mandatory record — an optional record or the End terminator — before
the prefix is complete); a record after an `EndOfLLDPDU`; or a total
serialized size beyond 1500 octets (1501 rejected, 1500 allowed).
Otherwise the append succeeds. -/
theorem lldpdu_append_error_iff (L : LLDPDU) (t : TLVrec)
    (hw : wfSeq L.tlvs = true) (hl : L.length = tlvSeqSize L.tlvs) :
    exceptIsErr (lldpduAppend L t) = true ↔
      ((isChassisB t = true ∧ L.tlvs.any isChassisB = true) ∨
       (isPortB t = true ∧ L.tlvs.any isPortB = true) ∨
       (isTTLB t = true ∧ L.tlvs.any isTTLB = true) ∨
       (isEndB t = true ∧ L.tlvs.any isEndB = true) ∨
       (isChassisB t = false ∧ L.tlvs = []) ∨
       (isPortB t = true ∧ L.tlvs.any isChassisB = false) ∨
       (isTTLB t = true ∧ L.tlvs.any isPortB = false) ∨
       (isMandatoryB t = false ∧ completeB L = false) ∨
       L.tlvs.any isEndB = true ∨
       tlvSeqSize L.tlvs + (tlvBytes t).length > 1500) := by
  have himp1 := fun h => wfSeq_port_imp_chassis hw h
  have himp3 : L.tlvs.any isChassisB = false → L.tlvs.any isPortB = false := by
    intro h
    cases hv : L.tlvs.any isPortB
    · rfl
    · rw [himp1 hv] at h
      exact absurd h (by simp)
  rw [lldpduAppend_isErr_char]
  constructor
  · rintro (h | h | ⟨ht, hx⟩ | ⟨ht, hx⟩ | ⟨ht, hx⟩ | ⟨ht1, ht2, ht3, hx⟩)
    · refine Or.inr (Or.inr (Or.inr (Or.inr (Or.inr (Or.inr (Or.inr (Or.inr
        (Or.inr ?_))))))))
      rw [hl] at h
      omega
    · exact Or.inr (Or.inr (Or.inr (Or.inr (Or.inr (Or.inr (Or.inr (Or.inr
        (Or.inl h))))))))
    · exact Or.inl ⟨(typeTag_one_iff t).mp ht, hx⟩
    · rcases hx with hx | hx
      · exact Or.inr (Or.inl ⟨(typeTag_two_iff t).mp ht, hx⟩)
      · exact Or.inr (Or.inr (Or.inr (Or.inr (Or.inr
          (Or.inl ⟨(typeTag_two_iff t).mp ht, hx⟩)))))
    · rcases hx with hx | hx | hx
      · exact Or.inr (Or.inr (Or.inl ⟨(typeTag_three_iff t).mp ht, hx⟩))
      · exact Or.inr (Or.inr (Or.inr (Or.inr (Or.inr (Or.inr
          (Or.inl ⟨(typeTag_three_iff t).mp ht, himp3 hx⟩))))))
      · exact Or.inr (Or.inr (Or.inr (Or.inr (Or.inr (Or.inr
          (Or.inl ⟨(typeTag_three_iff t).mp ht, hx⟩))))))
    · exact Or.inr (Or.inr (Or.inr (Or.inr (Or.inr (Or.inr (Or.inr
        (Or.inl ⟨(isMandatoryB_false_iff t).mpr ⟨ht1, ht2, ht3⟩, hx⟩)))))))
  · rintro (⟨hc, hx⟩ | ⟨hp, hx⟩ | ⟨ht, hx⟩ | ⟨he, hx⟩ | ⟨hc, hnil⟩ | ⟨hp, hx⟩ |
      ⟨ht, hx⟩ | ⟨hm, hx⟩ | hx | hx)
    · exact Or.inr (Or.inr (Or.inl ⟨(typeTag_one_iff t).mpr hc, hx⟩))
    · exact Or.inr (Or.inr (Or.inr (Or.inl ⟨(typeTag_two_iff t).mpr hp, Or.inl hx⟩)))
    · exact Or.inr (Or.inr (Or.inr (Or.inr
        (Or.inl ⟨(typeTag_three_iff t).mpr ht, Or.inl hx⟩))))
    · exact Or.inr (Or.inl hx)
    · have hchf : L.tlvs.any isChassisB = false := by rw [hnil]; rfl
      have hcompl : completeB L = false := by
        unfold completeB
        rw [hnil]
        simp
      cases t
      case endOf =>
        exact Or.inr (Or.inr (Or.inr (Or.inr (Or.inr ⟨by simp [typeTag],
          by simp [typeTag], by simp [typeTag], hcompl⟩))))
      case chassisId st v => simp [isChassisB] at hc
      case portId st v =>
        exact Or.inr (Or.inr (Or.inr (Or.inl ⟨by simp [typeTag], Or.inr hchf⟩)))
      case ttl v =>
        exact Or.inr (Or.inr (Or.inr (Or.inr (Or.inl ⟨by simp [typeTag],
          Or.inr (Or.inl hchf)⟩))))
      case portDescription s =>
        exact Or.inr (Or.inr (Or.inr (Or.inr (Or.inr ⟨by simp [typeTag],
          by simp [typeTag], by simp [typeTag], hcompl⟩))))
      case systemName s =>
        exact Or.inr (Or.inr (Or.inr (Or.inr (Or.inr ⟨by simp [typeTag],
          by simp [typeTag], by simp [typeTag], hcompl⟩))))
      case systemDescription s =>
        exact Or.inr (Or.inr (Or.inr (Or.inr (Or.inr ⟨by simp [typeTag],
          by simp [typeTag], by simp [typeTag], hcompl⟩))))
      case systemCapabilities v =>
        exact Or.inr (Or.inr (Or.inr (Or.inr (Or.inr ⟨by simp [typeTag],
          by simp [typeTag], by simp [typeTag], hcompl⟩))))
      case managementAddress a ifn ifst o =>
        exact Or.inr (Or.inr (Or.inr (Or.inr (Or.inr ⟨by simp [typeTag],
          by simp [typeTag], by simp [typeTag], hcompl⟩))))
      case organizationallySpecific oui st v =>
        exact Or.inr (Or.inr (Or.inr (Or.inr (Or.inr ⟨by simp [typeTag],
          by simp [typeTag], by simp [typeTag], hcompl⟩))))
    · exact Or.inr (Or.inr (Or.inr (Or.inl ⟨(typeTag_two_iff t).mpr hp, Or.inr hx⟩)))
    · exact Or.inr (Or.inr (Or.inr (Or.inr
        (Or.inl ⟨(typeTag_three_iff t).mpr ht, Or.inr (Or.inr hx)⟩))))
    · obtain ⟨h1, h2, h3⟩ := (isMandatoryB_false_iff t).mp hm
      exact Or.inr (Or.inr (Or.inr (Or.inr (Or.inr ⟨h1, h2, h3, hx⟩))))
    · exact Or.inr (Or.inl hx)
    · refine Or.inl ?_
      rw [hl]
      omega

/-- Witness for `lldpdu_append_error_iff`: the empty LLDPDU is a well-formed
state, and appending `TTL(60)` to it raises (a TTL before the Port-ID). -/
theorem lldpdu_append_error_iff_witness :
    wfSeq emptyLLDPDU.tlvs = true ∧
    exceptIsErr (lldpduAppend emptyLLDPDU (.ttl 60)) = true := by
  refine ⟨by decide, ?_⟩
  apply (lldpdu_append_error_iff emptyLLDPDU (.ttl 60) (by decide) (by decide)).mpr
  exact Or.inr (Or.inr (Or.inr (Or.inr (Or.inr (Or.inr (Or.inl ⟨rfl, rfl⟩))))))

/-- C5: `LLDPDU.append` is atomic.  On a well-formed state, a successful
append yields a state that still satisfies the prefix discipline (`wfSeq`),
and a raising call leaves the post-call state identical to the pre-call
state (every check precedes the mutation in the method body). -/
theorem lldpdu_append_atomic (L : LLDPDU) (t : TLVrec) (hw : wfSeq L.tlvs = true) :
    (∀ L2, lldpduAppend L t = .ok L2 → wfSeq L2.tlvs = true) ∧
    (∀ e, (lldpduAppendRun L t).1 = .error e → (lldpduAppendRun L t).2 = L) := by
  constructor
  · intro L2 hok
    unfold lldpduAppend lldpduAppendRun at hok
    split_ifs at hok with h1 h2 h3 h4 h5 h6 h7 h8 h9
    · -- Chassis-ID appended: no chassis yet, so the state was empty
      have hac : L.tlvs.any isChassisB = false := by
        cases hv : L.tlvs.any isChassisB
        · rfl
        · exact absurd hv h4
      have hnil := wfSeq_no_chassis_nil hw hac
      simp only [Except.ok.injEq] at hok
      rw [← hok, hnil]
      simp [wfSeq, (typeTag_one_iff t).mp h3]
    · -- Port-ID appended: the state was the lone chassis record
      rw [Bool.or_eq_true, Bool.not_eq_true', not_or] at h6
      obtain ⟨hap, hac⟩ := h6
      have hap2 : L.tlvs.any isPortB = false := by
        cases hv : L.tlvs.any isPortB
        · rfl
        · exact absurd hv hap
      obtain ⟨c, hshape, hcc⟩ := wfSeq_no_port_single hw hap2 (eq_true_of_ne_false hac)
      simp only [Except.ok.injEq] at hok
      rw [← hok, hshape]
      simp [wfSeq, hcc, (typeTag_two_iff t).mp h5]
    · -- TTL appended: the state was [chassis, port]
      rw [Bool.or_eq_true, Bool.or_eq_true, Bool.not_eq_true', Bool.not_eq_true',
        not_or, not_or] at h8
      obtain ⟨⟨hat, _⟩, hap⟩ := h8
      have hat2 : L.tlvs.any isTTLB = false := by
        cases hv : L.tlvs.any isTTLB
        · rfl
        · exact absurd hv hat
      obtain ⟨c, p, hshape, hcc, hpp⟩ :=
        wfSeq_no_ttl_pair hw hat2 (eq_true_of_ne_false hap)
      simp only [Except.ok.injEq] at hok
      rw [← hok, hshape]
      simp [wfSeq, wfOpts, hcc, hpp, (typeTag_three_iff t).mp h7]
    · -- optional record or End terminator appended onto a complete prefix
      rw [Bool.or_eq_true, Bool.or_eq_true, Bool.not_eq_true', Bool.not_eq_true',
        Bool.not_eq_true', not_or, not_or] at h9
      obtain ⟨⟨hac, hap⟩, hat⟩ := h9
      obtain ⟨c, p, tt, r3, hshape, hcc, hpp, htt, hwopts⟩ :=
        wfSeq_complete_shape hw (eq_true_of_ne_false hac) (eq_true_of_ne_false hap)
          (eq_true_of_ne_false hat)
      have hend : L.tlvs.any isEndB = false := by
        cases hv : L.tlvs.any isEndB
        · rfl
        · exact absurd hv h2
      have hendr3 : r3.any isEndB = false := by
        rw [hshape] at hend
        simp only [List.any_cons, Bool.or_eq_true] at hend
        cases hv : r3.any isEndB
        · rfl
        · rw [hv] at hend
          simp at hend
      have hx : 3 < typeTag t ∨ isEndB t = true := by
        cases t <;> simp_all [typeTag, isEndB]
      simp only [Except.ok.injEq] at hok
      rw [← hok, hshape]
      simp only [List.cons_append]
      rw [wfSeq]
      simp [hcc, hpp, htt, wfOpts_append hwopts hendr3 t hx]
  · intro e he
    unfold lldpduAppendRun at he ⊢
    split_ifs at he ⊢ <;> rfl

/-- Witness for `lldpdu_append_atomic`: on the empty (well-formed) LLDPDU,
`append(TTL(60))` raises and leaves the state untouched. -/
theorem lldpdu_append_atomic_witness :
    (lldpduAppendRun emptyLLDPDU (.ttl 60)).2 = emptyLLDPDU :=
  (lldpdu_append_atomic emptyLLDPDU (.ttl 60) (by decide)).2 .valueError (by decide)

/-! ### End-of-LLDPDU discipline (C10) -/

/-- C10: `append(EndOfLLDPDU)` only succeeds on an LLDPDU whose mandatory
prefix is complete (the End TLV falls into the same else-branch as the
optional records, which requires Chassis-ID, Port-ID and TTL all present);
consequently `LLDPDU.from_bytes` raises on every buffer whose first record
has the `EndOfLLDPDU` type tag — the first `append` is attempted on the
empty LLDPDU and fails (or the buffer is too short and the header read
fails) — rather than returning an empty or End-only LLDPDU. -/
theorem end_tlv_requires_complete_prefix :
    (∀ L L2 : LLDPDU, lldpduAppend L .endOf = .ok L2 → completeB L = true) ∧
    (∀ (b0 : Nat) (rest : List Nat), (b0 >>> 1) &&& 127 = 0 →
      exceptIsErr (lldpduFromBytes (b0 :: rest)) = true) := by
  constructor
  · intro L L2 hok
    unfold lldpduAppend lldpduAppendRun at hok
    split_ifs at hok with h1 h2 h3 h4 h5 h6 h7 h8 h9
    · exact absurd h3 (by simp [typeTag])
    · exact absurd h5 (by simp [typeTag])
    · exact absurd h7 (by simp [typeTag])
    · rw [Bool.or_eq_true, Bool.or_eq_true, Bool.not_eq_true', Bool.not_eq_true',
        Bool.not_eq_true', not_or, not_or] at h9
      obtain ⟨⟨hac, hap⟩, hat⟩ := h9
      unfold completeB
      rw [eq_true_of_ne_false hac, eq_true_of_ne_false hap, eq_true_of_ne_false hat]
      rfl
  · intro b0 rest hty
    match rest with
    | [] => rfl
    | b1 :: r =>
      show exceptIsErr (lldpduFromBytesGo ((b0 :: b1 :: r).length + 1)
        emptyLLDPDU (b0 :: b1 :: r)) = true
      have hlen : (b0 :: b1 :: r).length + 1 = (r.length + 2) + 1 := by
        simp [List.length_cons]
      rw [hlen, lldpduFromBytesGo]
      simp only [hty]
      by_cases hln : ((b0 &&& 1) <<< 8) ||| b1 > r.length
      · rw [if_pos hln]
        rfl
      · rw [if_neg hln, if_pos (by trivial)]
        decide

/-- Witness for `end_tlv_requires_complete_prefix`: appending the terminator
to the minimal complete LLDPDU succeeds, so that LLDPDU is complete; and the
buffer `00 00` (a leading End TLV) fails to decode. -/
theorem end_tlv_requires_complete_prefix_witness :
    completeB ⟨[.chassisId 4 (.bytesV [2, 4, 223, 136, 162, 180]),
      .portId 6 (.strV [101, 116, 104, 48]), .ttl 60], 20⟩ = true ∧
    exceptIsErr (lldpduFromBytes [0, 0]) = true := by
  constructor
  · exact end_tlv_requires_complete_prefix.1
      ⟨[.chassisId 4 (.bytesV [2, 4, 223, 136, 162, 180]),
        .portId 6 (.strV [101, 116, 104, 48]), .ttl 60], 20⟩
      ⟨[.chassisId 4 (.bytesV [2, 4, 223, 136, 162, 180]),
        .portId 6 (.strV [101, 116, 104, 48]), .ttl 60, .endOf], 22⟩
      (by decide)
  · exact end_tlv_requires_complete_prefix.2 0 [0] (by decide)

/-! ### Network-address family handling (C7) -/

/-- Reduction of `ChassisIdTLV.from_bytes` on a well-formed network-address
TLV frame `01 | len | 05 | family | packed`: only the `ip_address` parse and
the two family cross-checks remain. -/
theorem chassisNet_reduce (f : Nat) (addr : List Nat) :
    chassisFromBytes (2 :: (addr.length + 2) :: 5 :: f :: addr) =
      (match ipFromPacked addr with
       | .error e => .error e
       | .ok ip =>
         if f = 1 ∧ ipVersion ip ≠ 4 then .error .valueError
         else if f = 2 ∧ ipVersion ip ≠ 6 then .error .valueError
         else chassisIdInit 5 (.ipV ip)) := by
  simp only [chassisFromBytes]
  rw [if_neg (by decide : ¬((((2 : Nat) >>> 1) &&& 127) ≠ 1))]
  rw [show (((2 : Nat) &&& 1) <<< 8) = 0 from by decide, Nat.zero_or]
  rw [if_neg (not_not_intro (by simp : (5 :: f :: addr).length = addr.length + 2))]
  rw [if_neg (by decide : ¬((5 : Nat) = 4)), if_pos (by trivial)]
  rfl

set_option maxRecDepth 8192

/-- C7 amended: decoding a Chassis-ID network-address identifier fails
exactly when the packed address length is neither 4 nor 16 (the
`ip_address` parse), or the declared family octet is 2 with a 4-octet
address, or 1 with a 16-octet address; a family octet outside {1, 2} is not
itself rejected (the check chain has no else branch).
`ManagementAddressTLV.from_bytes` never reads the family octet at all: a
fixed IPv4 management TLV decodes to the same value for every family octet. -/
theorem network_family_decode_behavior :
    (∀ (f : Nat) (addr : List Nat), f < 256 → addr.length = 4 →
      (exceptIsErr (chassisFromBytes (2 :: (addr.length + 2) :: 5 :: f :: addr)) = false ↔
        f ≠ 2)) ∧
    (∀ (f : Nat) (addr : List Nat), f < 256 → addr.length = 16 →
      (exceptIsErr (chassisFromBytes (2 :: (addr.length + 2) :: 5 :: f :: addr)) = false ↔
        f ≠ 1)) ∧
    (∀ (f : Nat) (addr : List Nat), addr.length ≤ 253 → addr.length ≠ 4 →
      addr.length ≠ 16 →
      chassisFromBytes (2 :: (addr.length + 2) :: 5 :: f :: addr) = .error .valueError) ∧
    (∀ f : Nat, f < 256 →
      mgmtFromBytes [16, 12, 5, f, 192, 0, 2, 1, 2, 0, 0, 0, 7, 0] =
        .ok (.managementAddress (.v4 [192, 0, 2, 1]) 7 2 none)) := by
  refine ⟨?_, ?_, ?_, ?_⟩
  · intro f addr _ h4
    have hip : ipFromPacked addr = .ok (.v4 addr) := by
      unfold ipFromPacked
      rw [if_pos h4]
    rw [chassisNet_reduce, hip]
    show exceptIsErr (if f = 1 ∧ ipVersion (.v4 addr) ≠ 4 then .error .valueError
      else if f = 2 ∧ ipVersion (.v4 addr) ≠ 6 then .error .valueError
      else chassisIdInit 5 (.ipV (.v4 addr))) = false ↔ f ≠ 2
    rw [if_neg (by simp [ipVersion])]
    by_cases hf : f = 2
    · rw [if_pos ⟨hf, by simp [ipVersion]⟩]
      simp [exceptIsErr, hf]
    · rw [if_neg (fun h => hf h.1)]
      simp [exceptIsErr, chassisIdInit, hf]
  · intro f addr _ h16
    have hip : ipFromPacked addr = .ok (.v6 addr) := by
      unfold ipFromPacked
      rw [if_neg (by omega), if_pos h16]
    rw [chassisNet_reduce, hip]
    show exceptIsErr (if f = 1 ∧ ipVersion (.v6 addr) ≠ 4 then .error .valueError
      else if f = 2 ∧ ipVersion (.v6 addr) ≠ 6 then .error .valueError
      else chassisIdInit 5 (.ipV (.v6 addr))) = false ↔ f ≠ 1
    by_cases hf : f = 1
    · rw [if_pos ⟨hf, by simp [ipVersion]⟩]
      simp [exceptIsErr, hf]
    · rw [if_neg (fun h => hf h.1), if_neg (by simp [ipVersion])]
      simp [exceptIsErr, chassisIdInit, hf]
  · intro f addr _ h4 h16
    have hip : ipFromPacked addr = .error .valueError := by
      unfold ipFromPacked
      rw [if_neg h4, if_neg h16]
    rw [chassisNet_reduce, hip]
  · intro f _
    simp only [mgmtFromBytes, pyGet, pySlice, unpackBE4, mgmtInit, ipFromPacked]
    norm_num
    intro h
    exact absurd (by decide : ((16 : Nat) >>> 1) &&& 127 = 8) h

/-- Witness for `network_family_decode_behavior`: a family octet of 1 with a
4-octet packed address decodes, and a 1-octet packed address is rejected. -/
theorem network_family_decode_behavior_witness :
    exceptIsErr (chassisFromBytes [2, 6, 5, 1, 9, 9, 9, 9]) = false ∧
    chassisFromBytes [2, 3, 5, 1, 9] = .error .valueError := by
  constructor
  · exact (network_family_decode_behavior.1 1 [9, 9, 9, 9] (by decide) rfl).mpr (by decide)
  · exact network_family_decode_behavior.2.2.1 1 [9] (by decide) (by decide) (by decide)

/-! ### String TLV construction and round-trip (C8) -/

/-- C8 amended: the three string-TLV constructors perform no length
validation — construction succeeds for every string, 256 octets included —
and every string TLV whose UTF-8 payload is at most 255 octets round-trips
through encode/decode. -/
theorem string_tlv_construct_and_roundtrip :
    (∀ s : List Nat,
      portDescriptionInit s = .ok (.portDescription s) ∧
      systemNameInit s = .ok (.systemName s) ∧
      systemDescriptionInit s = .ok (.systemDescription s)) ∧
    (∀ s : List Nat, utf8Valid s = true → s.length ≤ 255 →
      portDescriptionFromBytes (tlvBytes (.portDescription s)) =
        .ok (.portDescription s) ∧
      systemNameFromBytes (tlvBytes (.systemName s)) = .ok (.systemName s) ∧
      systemDescriptionFromBytes (tlvBytes (.systemDescription s)) =
        .ok (.systemDescription s)) := by
  refine ⟨fun s => ⟨rfl, rfl, rfl⟩, ?_⟩
  intro s hu hlen
  have hdiv : s.length / 256 = 0 := Nat.div_eq_of_lt (by omega)
  have hmod : s.length % 256 = s.length := Nat.mod_eq_of_lt (by omega)
  refine ⟨?_, ?_, ?_⟩
  · show portDescriptionFromBytes
      ((2 * typeTag (.portDescription s) + (tlvPayload (.portDescription s)).length / 256) ::
        ((tlvPayload (.portDescription s)).length % 256) :: tlvPayload (.portDescription s)) = _
    simp only [typeTag, tlvPayload, hdiv, hmod, Nat.add_zero]
    simp only [portDescriptionFromBytes]
    rw [if_neg (by decide : ¬((((2 * 4 : Nat)) >>> 1) &&& 127 ≠ 4))]
    rw [show (((2 * 4 : Nat)) &&& 1) <<< 8 = 0 from by decide, Nat.zero_or]
    rw [if_neg (not_not_intro rfl), if_neg (not_not_intro hu)]
    rfl
  · show systemNameFromBytes
      ((2 * typeTag (.systemName s) + (tlvPayload (.systemName s)).length / 256) ::
        ((tlvPayload (.systemName s)).length % 256) :: tlvPayload (.systemName s)) = _
    simp only [typeTag, tlvPayload, hdiv, hmod, Nat.add_zero]
    simp only [systemNameFromBytes]
    rw [if_neg (by decide : ¬((((2 * 5 : Nat)) >>> 1) &&& 127 ≠ 5))]
    rw [show (((2 * 5 : Nat)) &&& 1) <<< 8 = 0 from by decide, Nat.zero_or]
    rw [if_neg (not_not_intro rfl), if_neg (not_not_intro hu)]
    rfl
  · show systemDescriptionFromBytes
      ((2 * typeTag (.systemDescription s) + (tlvPayload (.systemDescription s)).length / 256) ::
        ((tlvPayload (.systemDescription s)).length % 256) :: tlvPayload (.systemDescription s)) = _
    simp only [typeTag, tlvPayload, hdiv, hmod, Nat.add_zero]
    simp only [systemDescriptionFromBytes]
    rw [if_neg (by decide : ¬((((2 * 6 : Nat)) >>> 1) &&& 127 ≠ 6))]
    rw [show (((2 * 6 : Nat)) &&& 1) <<< 8 = 0 from by decide, Nat.zero_or]
    rw [if_neg (not_not_intro rfl), if_neg (not_not_intro hu)]
    rfl

/-- Witness for `string_tlv_construct_and_roundtrip`: the two-octet string
`"hi"` constructs and round-trips as a Port Description TLV. -/
theorem string_tlv_construct_and_roundtrip_witness :
    utf8Valid [104, 105] = true ∧
    portDescriptionFromBytes (tlvBytes (.portDescription [104, 105])) =
      .ok (.portDescription [104, 105]) :=
  ⟨by decide,
   (string_tlv_construct_and_roundtrip.2 [104, 105] (by decide) (by decide)).1⟩
